import Mathlib

/-!
# Verification of `coherence/lang/class_spec.hpp`

A shallow embedding of the `class_spec` template of the Coherence C++ extend
client: the identity and cast engine (`_cast`, `_getClassId`,
`COH_GENERATE_CLASS_ID`), the clone default, and the footprint query
(`sizeOf`).

A managed class hierarchy is single inheritance rooted at the universal base
`Object`; each class defined via `class_spec` carries its own class id, its
shallow size `sizeof(T)`, its list of directly declared capability
interfaces, and its parent specification.  The parts of the repository that
`class_spec.hpp` depends on but that are not part of the source under
verification (the `implements_chain::_icast` scan, the root `Object`
behaviour, the class-id generation, and `coh_throw_clone_not_supported`)
are modelled from the specification and marked as such.
-/

namespace Coherence

/-- A class identity token (`coh_class_id`). -/
abbrev CohClassId := Nat

/-- Modelled from the spec: a directly declared capability interface of a
class.  An interface answers a capability query for its own identity token
and for the tokens of every interface it transitively extends; `tokens` is
that set, in scan order. -/
structure IfaceDecl where
  tokens : List CohClassId
deriving Repr, DecidableEq

/-- Whether an interface sub-object answers the capability query for token
`t` (modelled from the spec: an interface supports its own token and those
of every interface it transitively extends). -/
def IfaceDecl.supports (i : IfaceDecl) (t : CohClassId) : Bool :=
  i.tokens.contains t

/-- A class specification: either the universal root `Object`, or a class
defined via the `class_spec` template with its own class id, its shallow
size `sizeof(T)`, its directly declared interfaces (`implements<...>`), and
its parent specification (`extends<...>`). -/
inductive ClassSpec where
  | object (classId : CohClassId) (shallowSize : Nat)
  | spec (classId : CohClassId) (shallowSize : Nat)
      (ifaces : List IfaceDecl) (parent : ClassSpec)
deriving Repr, DecidableEq

/-- The class identity token `COH_CLASS_ID(T)` of a class. -/
def ClassSpec.classId : ClassSpec → CohClassId
  | .object cid _ => cid
  | .spec cid _ _ _ => cid

/-- The result of a capability query: a typed pointer into the queried
instance.  `self cid` is the instance itself viewed as the exact class with
id `cid` (the `static_cast<const T*>(this)` base case); `ifaceSub lvl slot`
is the sub-object of the `slot`-th directly declared interface of the
ancestor `lvl` levels above the concrete class (`lvl = 0` is the concrete
class's own interface chain). -/
inductive Ptr where
  | self (cid : CohClassId)
  | ifaceSub (lvl : Nat) (slot : Nat)
deriving Repr, DecidableEq

/-- Modelled from the spec: `I::implements_chain::_icast` — the
breadth-first scan across the directly declared interfaces, asking each in
turn whether it supports the requested token; the first match yields the
typed pointer into that interface's sub-object.  `lvl` records how many
levels above the concrete class this chain lives, `slot` the position of
the first interface still to scan. -/
def icastList (lvl slot : Nat) : List IfaceDecl → CohClassId → Option Ptr
  | [], _ => none
  | i :: rest, t =>
      if i.supports t then some (.ifaceSub lvl slot)
      else icastList lvl (slot + 1) rest t

/-- `class_spec::_cast` (class_spec.hpp lines 183–193), with the level
relative to the concrete class made explicit:

    void* p = COH_CLASS_ID(T) == pInfo
            ? (void*) static_cast<const T*>(this)
            : I::implements_chain::_icast(pInfo);
    return p ? p : super_spec::_cast(pInfo);

The root `Object` case is modelled from the spec: the universal root
answers for its own identity token and otherwise reports the capability
absent (null). -/
def castAux : ClassSpec → CohClassId → Nat → Option Ptr
  | .object cid _, pInfo, _ =>
      if cid == pInfo then some (.self cid) else none
  | .spec cid _ ifaces parent, pInfo, lvl =>
      let p := if cid == pInfo then some (Ptr.self cid)
               else icastList lvl 0 ifaces pInfo
      match p with
      | some q => some q
      | none => castAux parent pInfo (lvl + 1)

/-- The capability query `_cast` entered at the concrete class (level 0). -/
def ClassSpec._cast (c : ClassSpec) (pInfo : CohClassId) : Option Ptr :=
  castAux c pInfo 0

/-- The shallow size `sizeof(T)` of a class.  As in C++, the shallow size
of a derived class already accumulates the footprint of all its ancestors'
fields. -/
def ClassSpec.shallowSize : ClassSpec → Nat
  | .object _ sz => sz
  | .spec _ sz _ _ => sz

/-- `class_spec::sizeOf` (class_spec.hpp lines 176–181), one level of the
static delegation chain:

    return fDeep ? inherited::sizeOf(true) : sizeof(T);

`inherited::sizeOf(true)` is a statically qualified call on the *same*
instance, so the whole chain runs on the concrete instance; the third
argument carries that instance's accumulated shallow footprint
(`sizeof` of its concrete class).  The root `Object` case is modelled from
the spec: the universal root's size query is the ordinary dispatched
bottom of the chain and reports the concrete instance's accumulated
footprint. -/
def sizeOfAux : ClassSpec → Bool → Nat → Nat
  | .object _ _, _, concreteSize => concreteSize
  | .spec _ sz _ parent, fDeep, concreteSize =>
      if fDeep then sizeOfAux parent true concreteSize else sz

/-- The virtual entry point of `sizeOf`: dispatched at the concrete class
of the instance, whose accumulated shallow footprint is `c.shallowSize`. -/
def ClassSpec.sizeOf (c : ClassSpec) (fDeep : Bool) : Nat :=
  sizeOfAux c fDeep c.shallowSize

/-- Modelled from the spec: `coh_throw_clone_not_supported` (declared
`extern` in class_spec.hpp line 20, defined outside the source under
verification) raises the "cloning not supported" condition naming the
given concrete class, and never returns normally. -/
def coh_throw_clone_not_supported (ti : CohClassId) :
    Except CohClassId Unit :=
  Except.error ti

/-- `class_spec::clone` (class_spec.hpp lines 170–174):

    coh_throw_clone_not_supported(typeid(T));
    return NULL;

`typeid(T)` is modelled by the class's identity (both are determined by the
concrete class `T`).  The `return NULL` after the raise is kept: it is the
value the caller would receive if the condition were not raised. -/
def ClassSpec.clone (c : ClassSpec) : Except CohClassId (Option Ptr) := do
  let _ ← coh_throw_clone_not_supported c.classId
  pure none

/-- `class_spec::_getClassId` (class_spec.hpp lines 203–206): returns
`COH_CLASS_ID(T)` of the concrete class of the instance. -/
def ClassSpec._getClassId (c : ClassSpec) : CohClassId :=
  c.classId

/-- A managed instance: its concrete class specification together with its
instance-specific field data. -/
structure Instance where
  cls : ClassSpec
  fieldData : List Nat
deriving Repr, DecidableEq

/-- `_getClassId` on an instance dispatches to the concrete class's
`class_spec::_getClassId`, which returns `COH_CLASS_ID(T)` independent of
any per-instance data. -/
def Instance._getClassId (o : Instance) : CohClassId :=
  o.cls._getClassId

/-- Modelled from the spec: `COH_GENERATE_CLASS_ID` assigns each class a
process-wide unique token, write-once at class definition; modelled as a
registration step that hands out tokens from a process-wide counter in
registration order.  `tokenOf registry name` is the token of the class
named `name` in a process whose classes registered in the order
`registry`. -/
def tokenOf : List String → String → Option CohClassId
  | [], _ => none
  | c :: rest, name =>
      if c = name then some 0
      else (tokenOf rest name).map (· + 1)

/-- The list of class identity tokens along the ancestor chain, the
concrete class first, the universal root last. -/
def ClassSpec.ancestorIds : ClassSpec → List CohClassId
  | .object cid _ => [cid]
  | .spec cid _ _ parent => cid :: parent.ancestorIds

/-- Whether the token `t` is present anywhere in the class: as its own id,
as a token supported by a directly declared interface, or anywhere in the
parent chain. -/
def ClassSpec.supportsToken : ClassSpec → CohClassId → Bool
  | .object cid _, t => cid == t
  | .spec cid _ ifaces parent, t =>
      cid == t || ifaces.any (·.supports t) || parent.supportsToken t

/-- The depth of the ancestor chain (number of `class_spec` levels above
the universal root). -/
def ClassSpec.depth : ClassSpec → Nat
  | .object _ _ => 0
  | .spec _ _ _ parent => parent.depth + 1

/-- Fuel-indexed capability query: performs the same steps as `castAux`
but consumes one unit of fuel per delegation to the parent specification;
returns `none` when the fuel is exhausted before the query completes. -/
def castFuel : Nat → ClassSpec → CohClassId → Nat → Option (Option Ptr)
  | _, .object cid _, pInfo, _ =>
      some (if cid == pInfo then some (.self cid) else none)
  | fuel, .spec cid _ ifaces parent, pInfo, lvl =>
      let p := if cid == pInfo then some (Ptr.self cid)
               else icastList lvl 0 ifaces pInfo
      match p with
      | some q => some (some q)
      | none =>
          match fuel with
          | 0 => none
          | fuel + 1 => castFuel fuel parent pInfo (lvl + 1)

/-- Fuel-indexed size-query delegation chain: performs the same steps as
`sizeOfAux` but consumes one unit of fuel per delegation to the parent
specification; returns `none` when the fuel is exhausted. -/
def sizeOfFuelAux : Nat → ClassSpec → Bool → Nat → Option Nat
  | _, .object _ _, _, concreteSize => some concreteSize
  | fuel, .spec _ sz _ parent, fDeep, concreteSize =>
      if fDeep then
        match fuel with
        | 0 => none
        | fuel + 1 => sizeOfFuelAux fuel parent true concreteSize
      else some sz

/-- Fuel-indexed size query, entered at the concrete class like
`ClassSpec.sizeOf`. -/
def sizeOfFuel (fuel : Nat) (c : ClassSpec) (fDeep : Bool) : Option Nat :=
  sizeOfFuelAux fuel c fDeep c.shallowSize

end Coherence

namespace Coherence

/-! ## Helper lemmas -/

/-- If no directly declared interface supports the token, the scan of the
implements chain comes back null. -/
theorem icastList_eq_none (lvl : Nat) (ifaces : List IfaceDecl) (t : CohClassId)
    (h : ifaces.any (·.supports t) = false) :
    ∀ slot, icastList lvl slot ifaces t = none := by
  induction ifaces with
  | nil => intro slot; rfl
  | cons i rest ih =>
      intro slot
      rw [List.any_cons, Bool.or_eq_false_iff] at h
      simp [icastList, h.1, ih h.2]

/-- If some directly declared interface supports the token, the scan of the
implements chain yields a pointer into an interface sub-object at the scan's
own level. -/
theorem icastList_eq_some (lvl : Nat) (ifaces : List IfaceDecl) (t : CohClassId)
    (h : ifaces.any (·.supports t) = true) :
    ∀ slot, ∃ k, icastList lvl slot ifaces t = some (.ifaceSub lvl k) := by
  induction ifaces with
  | nil => simp at h
  | cons i rest ih =>
      intro slot
      by_cases hi : i.supports t = true
      · exact ⟨slot, by simp [icastList, hi]⟩
      · simp only [List.any_cons, Bool.or_eq_true] at h
        have h' : rest.any (·.supports t) = true := by
          rcases h with h | h
          · exact absurd h hi
          · exact h
        obtain ⟨k, hk⟩ := ih h' (slot + 1)
        exact ⟨k, by simp [icastList, hi, hk]⟩

/-- A capability query for a token present nowhere in the class comes back
null, at every level. -/
theorem castAux_eq_none (c : ClassSpec) (t : CohClassId)
    (h : c.supportsToken t = false) :
    ∀ lvl, castAux c t lvl = none := by
  induction c with
  | object cid sz =>
      intro lvl
      rw [ClassSpec.supportsToken] at h
      simp [castAux, h]
  | spec cid sz ifaces parent ih =>
      intro lvl
      rw [ClassSpec.supportsToken, Bool.or_eq_false_iff, Bool.or_eq_false_iff] at h
      obtain ⟨⟨h1, h2⟩, h3⟩ := h
      simp [castAux, h1, icastList_eq_none lvl ifaces t h2, ih h3]

/-- A capability query for the token of any class on the ancestor chain
succeeds, at every level. -/
theorem castAux_isSome_of_ancestor (c : ClassSpec) (a : CohClassId)
    (h : a ∈ c.ancestorIds) :
    ∀ lvl, (castAux c a lvl).isSome = true := by
  induction c with
  | object cid sz =>
      intro lvl
      rw [ClassSpec.ancestorIds, List.mem_singleton] at h
      subst h
      simp [castAux]
  | spec cid sz ifaces parent ih =>
      intro lvl
      rw [ClassSpec.ancestorIds] at h
      rcases List.mem_cons.mp h with h | h
      · subst h
        simp [castAux]
      · by_cases hcid : (cid == a) = true
        · simp [castAux, hcid]
        · cases hic : icastList lvl 0 ifaces a with
          | some q => simp [castAux, hcid, hic]
          | none => simpa [castAux, hcid, hic] using ih h (lvl + 1)

/-- With fuel at least the depth of the hierarchy, the fuel-indexed
capability query completes and agrees with the structural one. -/
theorem castFuel_eq (c : ClassSpec) (t : CohClassId) :
    ∀ fuel lvl, c.depth ≤ fuel → castFuel fuel c t lvl = some (castAux c t lvl) := by
  induction c with
  | object cid sz =>
      intro fuel lvl _
      cases fuel <;> rfl
  | spec cid sz ifaces parent ih =>
      intro fuel lvl h
      rw [ClassSpec.depth] at h
      cases fuel with
      | zero => omega
      | succ f =>
          have hf : parent.depth ≤ f := by omega
          by_cases hcid : (cid == t) = true
          · simp [castFuel, castAux, hcid]
          · cases hic : icastList lvl 0 ifaces t with
            | some q => simp [castFuel, castAux, hcid, hic]
            | none => simp [castFuel, castAux, hcid, hic, ih f (lvl + 1) hf]

/-- With fuel at least the depth of the hierarchy, the fuel-indexed size
delegation chain completes and agrees with the structural one, whatever
concrete footprint it carries. -/
theorem sizeOfFuelAux_eq (c : ClassSpec) :
    ∀ fuel k, c.depth ≤ fuel →
      sizeOfFuelAux fuel c true k = some (sizeOfAux c true k) := by
  induction c with
  | object cid sz =>
      intro fuel k _
      cases fuel <;> rfl
  | spec cid sz ifaces parent ih =>
      intro fuel k h
      rw [ClassSpec.depth] at h
      cases fuel with
      | zero => omega
      | succ f => simp [sizeOfFuelAux, sizeOfAux, ih f k (by omega)]

/-- With fuel at least the depth of the hierarchy, the fuel-indexed deep
size query completes and agrees with the structural one. -/
theorem sizeOfFuel_eq (c : ClassSpec) :
    ∀ fuel, c.depth ≤ fuel → sizeOfFuel fuel c true = some (c.sizeOf true) := by
  intro fuel h
  exact sizeOfFuelAux_eq c fuel c.shallowSize h

/-- The deep delegation chain passes the concrete instance's accumulated
footprint through unchanged: every `class_spec` level delegates without
adding a term and the universal root reports the carried footprint. -/
theorem sizeOfAux_deep (c : ClassSpec) : ∀ k, sizeOfAux c true k = k := by
  induction c with
  | object cid sz => intro k; rfl
  | spec cid sz ifaces parent ih => intro k; simpa [sizeOfAux] using ih k

/-- Tokens handed out by the registration-order token generator are
injective: two distinct registered class names never share a token. -/
theorem tokenOf_inj (registry : List String) :
    ∀ c1 c2 t1 t2, tokenOf registry c1 = some t1 → tokenOf registry c2 = some t2 →
      c1 ≠ c2 → t1 ≠ t2 := by
  induction registry with
  | nil => intro c1 c2 t1 t2 h1; simp [tokenOf] at h1
  | cons c rest ih =>
      intro c1 c2 t1 t2 h1 h2 hne
      by_cases e1 : c = c1
      · subst e1
        rw [tokenOf, if_pos rfl] at h1
        have he2 : ¬ c = c2 := fun hc => hne (hc.symm ▸ rfl)
        rw [tokenOf, if_neg he2] at h2
        obtain ⟨b, hb, hbt⟩ := Option.map_eq_some'.mp h2
        have ht1 : (0 : Nat) = t1 := Option.some.inj h1
        have ht2 : b + 1 = t2 := hbt
        rw [← ht1, ← ht2]
        exact (Nat.succ_ne_zero b).symm
      · rw [tokenOf, if_neg e1] at h1
        obtain ⟨a, ha, hat⟩ := Option.map_eq_some'.mp h1
        have ht1 : a + 1 = t1 := hat
        by_cases e2 : c = c2
        · subst e2
          rw [tokenOf, if_pos rfl] at h2
          have ht2 : (0 : Nat) = t2 := Option.some.inj h2
          rw [← ht1, ← ht2]
          exact Nat.succ_ne_zero a
        · rw [tokenOf, if_neg e2] at h2
          obtain ⟨b, hb, hbt⟩ := Option.map_eq_some'.mp h2
          have ht2 : b + 1 = t2 := hbt
          have hab : a ≠ b := ih c1 c2 a b ha hb hne
          rw [← ht1, ← ht2]
          exact fun h => hab (Nat.succ.inj h)

end Coherence

namespace Coherence

/-! ## Claim theorems -/

/-- Claim C1: for every instance of a class C defined via `class_spec`, the
capability query `_cast` with C's own class identity token returns a
non-null pointer to the instance itself, viewed as the exact class C (the
`static_cast<const T*>(this)` base case of `class_spec::_cast`). -/
theorem cast_own_classId_returns_self (cid sz : Nat) (ifaces : List IfaceDecl)
    (parent : ClassSpec) :
    (ClassSpec.spec cid sz ifaces parent)._cast cid = some (Ptr.self cid) := by
  simp [ClassSpec._cast, castAux]

/-- Claim C2: when class C itself directly declares an interface supporting
token `t` (and `t` is not C's own id), while C's parent chain also supports
`t`, the capability query resolves `t` against C's own directly declared
interface chain — the result is exactly the level-0 scan's result, a
pointer into a sub-object of one of C's own interfaces (`lvl = 0`), never a
pointer obtained from an ancestor's chain. -/
theorem cast_prefers_direct_interfaces (cid t sz : Nat) (ifaces : List IfaceDecl)
    (parent : ClassSpec)
    (hcid : cid ≠ t)
    (hdirect : ifaces.any (·.supports t) = true)
    (hanc : parent.supportsToken t = true) :
    (ClassSpec.spec cid sz ifaces parent)._cast t = icastList 0 0 ifaces t ∧
      ∃ k, (ClassSpec.spec cid sz ifaces parent)._cast t = some (Ptr.ifaceSub 0 k) := by
  obtain ⟨k, hk⟩ := icastList_eq_some 0 ifaces t hdirect 0
  constructor
  · simp [ClassSpec._cast, castAux, hcid, hk]
  · exact ⟨k, by simp [ClassSpec._cast, castAux, hcid, hk]⟩

/-- Witness for claim C2: a leaf class (id 5) directly declaring an
interface that supports token 10, over a parent (id 2) that also declares
an interface supporting token 10. -/
theorem cast_prefers_direct_interfaces_witness :
    (ClassSpec.spec 5 16 [⟨[10]⟩]
        (ClassSpec.spec 2 8 [⟨[10]⟩] (ClassSpec.object 1 4)))._cast 10 =
      icastList 0 0 [⟨[10]⟩] 10 ∧
    ∃ k, (ClassSpec.spec 5 16 [⟨[10]⟩]
        (ClassSpec.spec 2 8 [⟨[10]⟩] (ClassSpec.object 1 4)))._cast 10 =
      some (Ptr.ifaceSub 0 k) :=
  cast_prefers_direct_interfaces 5 10 16 [⟨[10]⟩]
    (ClassSpec.spec 2 8 [⟨[10]⟩] (ClassSpec.object 1 4))
    (by decide) (by decide) (by decide)

/-- Claim C3: `class_spec::clone`, when not overridden, always raises the
"cloning not supported" condition naming the exact concrete class
(`typeid(T)`, modelled by the class id); it never returns a value to the
caller — the result is the raised condition, not an `ok` value. -/
theorem clone_default_raises_not_supported (c : ClassSpec) :
    c.clone = Except.error c.classId := rfl

/-- Claim C4: for a token present nowhere in the class — not its own id,
not supported by any interface declared anywhere on the chain, not any
ancestor's id — the capability query returns null; the return type is an
ordinary `Option`, so this null is a normal return value and no error is
raised. -/
theorem cast_absent_token_returns_null (c : ClassSpec) (t : CohClassId)
    (h : c.supportsToken t = false) :
    c._cast t = none :=
  castAux_eq_none c t h 0

/-- Witness for claim C4: token 99 is supported nowhere in a two-level
hierarchy whose ids are 3 and 1 and whose only interface supports 10. -/
theorem cast_absent_token_returns_null_witness :
    (ClassSpec.spec 3 48 [⟨[10]⟩] (ClassSpec.object 1 8)).supportsToken 99 = false ∧
    (ClassSpec.spec 3 48 [⟨[10]⟩] (ClassSpec.object 1 8))._cast 99 = none :=
  ⟨by decide,
    cast_absent_token_returns_null
      (ClassSpec.spec 3 48 [⟨[10]⟩] (ClassSpec.object 1 8)) 99 (by decide)⟩

/-- Claim C5: for every instance of class C whose ancestor chain includes a
distinct class A, the capability query with A's class identity token
returns non-null: the query that matches neither C's id nor a direct
interface is delegated unchanged to the parent specification, up to the
universal root. -/
theorem cast_ancestor_id_nonnull (c : ClassSpec) (a : CohClassId)
    (hmem : a ∈ c.ancestorIds) (hne : a ≠ c.classId) :
    ((c._cast a).isSome : Bool) = true :=
  castAux_isSome_of_ancestor c a hmem 0

/-- Witness for claim C5: the middle class's id 2 on a 3-level chain with
ids 3, 2, 1 is found by the query on the leaf. -/
theorem cast_ancestor_id_nonnull_witness :
    (2 : Nat) ∈ (ClassSpec.spec 3 48 []
        (ClassSpec.spec 2 24 [] (ClassSpec.object 1 8))).ancestorIds ∧
    (((ClassSpec.spec 3 48 []
        (ClassSpec.spec 2 24 [] (ClassSpec.object 1 8)))._cast 2).isSome : Bool) = true :=
  ⟨by decide,
    cast_ancestor_id_nonnull
      (ClassSpec.spec 3 48 [] (ClassSpec.spec 2 24 [] (ClassSpec.object 1 8)))
      2 (by decide) (by decide)⟩

/-- Claim C6: `sizeOf(false)` on a class defined via `class_spec` returns
exactly the shallow size `sizeof(T)`, whatever the parent (hence
independent of the depth of the ancestor chain); `ClassSpec.sizeOf` is a
total function into `Nat`, so the query cannot throw and cannot be
negative. -/
theorem sizeOf_shallow_eq_sizeof (cid sz : Nat) (ifaces : List IfaceDecl)
    (parent : ClassSpec) :
    (ClassSpec.spec cid sz ifaces parent).sizeOf false = sz := rfl

/-- Claim C7: on a 3-level hierarchy where the root contributes `r` units,
the middle adds `m` and the leaf adds `l` — so the accumulated shallow
footprints are `r`, `r + m` and `r + m + l`, as C++ `sizeof` accumulates a
derived class's inherited fields — the deep size query on a leaf instance
returns `r + m + l`: each level's contribution is in the total, the
delegation runs up the chain on the same instance, and the recursion
bottoms out at the universal root, which reports the instance's
accumulated footprint.  In the spec's scenario `r = 8`, `m = 16`, `l = 24`
and the result is `48`. -/
theorem sizeOf_deep_three_level (rid mid lid r m l : Nat)
    (mi li : List IfaceDecl) :
    (ClassSpec.spec lid (r + m + l) li
        (ClassSpec.spec mid (r + m) mi (ClassSpec.object rid r))).sizeOf true
        = r + m + l ∧
    (ClassSpec.spec 3 48 []
        (ClassSpec.spec 2 24 [] (ClassSpec.object 1 8))).sizeOf true = 48 :=
  ⟨rfl, rfl⟩

/-- Claim C8: two distinct classes registered with the class-id generator
never share an identity token, and `_getClassId` on an instance depends
only on the instance's concrete class — all instances of one class report
the one token assigned at class definition (the generator is a pure
function of the registration order, so the token never changes). -/
theorem classId_unique_and_instance_stable (registry : List String)
    (c1 c2 : String) (t1 t2 : CohClassId)
    (h1 : tokenOf registry c1 = some t1) (h2 : tokenOf registry c2 = some t2)
    (hne : c1 ≠ c2) (o o' : Instance) (ho : o.cls = o'.cls) :
    t1 ≠ t2 ∧ o._getClassId = o'._getClassId :=
  ⟨tokenOf_inj registry c1 c2 t1 t2 h1 h2 hne,
    by simp [Instance._getClassId, ho]⟩

/-- Witness for claim C8: in a process registering classes Foo then Bar,
Foo's token 0 differs from Bar's token 1; two instances of one class with
different field data report the same class id. -/
theorem classId_unique_and_instance_stable_witness :
    (0 : CohClassId) ≠ 1 ∧
      (Instance.mk (ClassSpec.object 7 8) [1])._getClassId =
        (Instance.mk (ClassSpec.object 7 8) [2, 3])._getClassId :=
  classId_unique_and_instance_stable ["Foo", "Bar"] "Foo" "Bar" 0 1
    (by decide) (by decide) (by decide)
    (Instance.mk (ClassSpec.object 7 8) [1])
    (Instance.mk (ClassSpec.object 7 8) [2, 3]) rfl

/-- Claim C9: on every class specification (the ancestor chain is finite
and acyclic by construction of `ClassSpec`), the capability query and the
deep size query terminate within a number of parent delegations bounded by
the depth of the hierarchy: with any fuel of at least the depth, the
fuel-indexed versions complete and agree with the structural queries (the
per-level interface scan is itself bounded by the finite list of directly
declared interfaces). -/
theorem cast_and_sizeOf_terminate (c : ClassSpec) (t : CohClassId) (fuel : Nat)
    (h : c.depth ≤ fuel) :
    castFuel fuel c t 0 = some (c._cast t) ∧
      sizeOfFuel fuel c true = some (c.sizeOf true) :=
  ⟨castFuel_eq c t fuel 0 h, sizeOfFuel_eq c fuel h⟩

/-- Witness for claim C9: fuel 2 suffices for the depth-2 hierarchy with
ids 3, 2, 1 on the query for token 10. -/
theorem cast_and_sizeOf_terminate_witness :
    ClassSpec.depth (ClassSpec.spec 3 48 [⟨[10]⟩]
        (ClassSpec.spec 2 24 [] (ClassSpec.object 1 8))) ≤ 2 ∧
    (castFuel 2 (ClassSpec.spec 3 48 [⟨[10]⟩]
          (ClassSpec.spec 2 24 [] (ClassSpec.object 1 8))) 10 0 =
        some ((ClassSpec.spec 3 48 [⟨[10]⟩]
          (ClassSpec.spec 2 24 [] (ClassSpec.object 1 8)))._cast 10) ∧
      sizeOfFuel 2 (ClassSpec.spec 3 48 [⟨[10]⟩]
          (ClassSpec.spec 2 24 [] (ClassSpec.object 1 8))) true =
        some ((ClassSpec.spec 3 48 [⟨[10]⟩]
          (ClassSpec.spec 2 24 [] (ClassSpec.object 1 8))).sizeOf true)) :=
  ⟨by decide,
    cast_and_sizeOf_terminate
      (ClassSpec.spec 3 48 [⟨[10]⟩] (ClassSpec.spec 2 24 [] (ClassSpec.object 1 8)))
      10 2 (by decide)⟩

/-- Counterexample to claim C10: on the 3-level hierarchy with ids 3, 2, 1
and accumulated shallow footprints 48, 24, 8, no class overrides `sizeOf`,
yet the leaf's deep size is 48 — equal to the leaf's own `sizeof(T)` and
different from the deep size reported on a parent-class instance (24): the
concrete class's own fields are in the deep total with no override
anywhere. -/
theorem sizeOf_deep_includes_own_fields_counterexample :
    (ClassSpec.spec 3 48 []
        (ClassSpec.spec 2 24 [] (ClassSpec.object 1 8))).sizeOf true = 48 ∧
    (ClassSpec.spec 2 24 [] (ClassSpec.object 1 8)).sizeOf true = 24 ∧
    ¬ (ClassSpec.spec 3 48 []
        (ClassSpec.spec 2 24 [] (ClassSpec.object 1 8))).sizeOf true
        = (ClassSpec.spec 2 24 [] (ClassSpec.object 1 8)).sizeOf true := by
  decide

/-- Amended claim C10: a class defined via `class_spec` that does not
override `sizeOf` delegates the deep query unchanged to the parent
specification's chain on the same instance — no level adds a term of its
own — but the chain bottoms out at the universal root, which reports the
concrete instance's accumulated footprint: the deep size equals
`sizeof(T)` of the concrete class, so the class's own fields are included
even though no class overrides `sizeOf`. -/
theorem sizeOf_deep_delegates_to_concrete_footprint (cid sz : Nat)
    (ifaces : List IfaceDecl) (parent : ClassSpec) (k : Nat) :
    sizeOfAux (ClassSpec.spec cid sz ifaces parent) true k
        = sizeOfAux parent true k ∧
    (ClassSpec.spec cid sz ifaces parent).sizeOf true = sz := by
  refine ⟨rfl, ?_⟩
  simp [ClassSpec.sizeOf, ClassSpec.shallowSize, sizeOfAux_deep]

end Coherence
